import Mathlib

/-!
Verification development for the file-indexer service: a shallow embedding of
the admin-task store, the keyset-paginated listings, the re-index scheduler
ticks and the file GC sweep, together with theorems settling the spec's claims
about them.

Sources embedded (Rust):
- src/services/admin_task_service.rs (task store operations)
- src/services/file_service.rs (FileService::list_files)
- src/db/repositories/file.rs (FileRepository::list, delete_unready_many,
  update_one_as_ready)
- src/db/repositories/collections.rs (CollectionRepository::list)
- src/fairings/re_indexer.rs (tick functions and interval selection)
- src/fairings/file_gc.rs (file_gc_task_on_tick)

Modelling conventions: UUIDs and UTC timestamps are Nats (only their equality
and total order matter to the embedded code paths); SQL queries become
filter / insertionSort / take pipelines over in-memory tables (WHERE, then
ORDER BY, then LIMIT; the stable sort determinises the order of rows the SQL
order leaves tied); fallible effects (the search-index sink, the INSERT inside the
enqueue transaction) are parameterised by an explicit success flag, and a
failed transaction leaves the store unchanged (rollback); serde_json values
are an inductive Json type, with UUID/timestamp payloads encoded as Json.num.
-/

namespace FileIndexer

/-- Model of serde_json::Value as round-tripped through the admin task
metadata column. Scalar id/timestamp payloads are modelled as num. -/
inductive Json where
  | null : Json
  | bool (b : Bool) : Json
  | num (n : Nat) : Json
  | str (s : String) : Json
  | obj (fields : List (String × Json)) : Json

/-- Row of the files table. Only the columns the verified code paths read
are kept: id, uploaded_at and is_ready (src/db/repositories/file.rs). -/
structure FileRow where
  id : Nat
  uploadedAt : Nat
  isReady : Bool
deriving DecidableEq, Repr

/-- Cursor for the files listing (FileCursor in src/services/file_service.rs:
id + uploaded_at). -/
structure FileCursor where
  id : Nat
  uploadedAt : Nat
deriving DecidableEq, Repr

/-- Row of the collections table (id, name). -/
structure CollectionRow where
  id : Nat
  name : String
deriving DecidableEq, Repr

/-- Cursor for the collections listing (CollectionCursorEntity in
src/db/repositories/collections.rs: id + name). -/
structure CollectionCursor where
  id : Nat
  name : String
deriving DecidableEq, Repr

/-- ORDER BY uploaded_at DESC, id ASC as a total order on file rows. -/
def fileOrder (a b : FileRow) : Prop :=
  b.uploadedAt < a.uploadedAt ∨ (a.uploadedAt = b.uploadedAt ∧ a.id ≤ b.id)

instance : DecidableRel fileOrder := fun _ _ =>
  inferInstanceAs (Decidable (_ ∨ _))

/-- WHERE clause of FileService::list_files with a cursor
(src/services/file_service.rs line 66): uploaded_at <= $1 AND id > $2. -/
def fileAfterCursor (c : FileCursor) (f : FileRow) : Bool :=
  decide (f.uploadedAt ≤ c.uploadedAt) && decide (c.id < f.id)

/-- The position predicate of the (uploaded_at DESC, id ASC) total order:
row f sorts strictly after the cursor position c. -/
def fileStrictlyAfter (c : FileCursor) (f : FileRow) : Bool :=
  decide (f.uploadedAt < c.uploadedAt) ||
    (decide (f.uploadedAt = c.uploadedAt) && decide (c.id < f.id))

/-- FileService::list_files (src/services/file_service.rs lines 52-134):
WHERE by cursor, ORDER BY uploaded_at DESC id ASC, LIMIT. This service-layer
query has no is_ready condition. -/
def list_files (table : List FileRow) (limit : Nat) (cursor : Option FileCursor) :
    List FileRow :=
  match cursor with
  | some c => (((table.filter (fileAfterCursor c)).insertionSort fileOrder).take limit)
  | none => ((table.insertionSort fileOrder).take limit)

/-- FileRepository::list (src/db/repositories/file.rs lines 70-118): same
shape as list_files but with the additional is_ready = TRUE condition in
both branches. -/
def file_repository_list (table : List FileRow) (limit : Nat)
    (cursor : Option FileCursor) : List FileRow :=
  match cursor with
  | some c =>
      (((table.filter (fun f => fileAfterCursor c f && f.isReady)).insertionSort
        fileOrder).take limit)
  | none => (((table.filter (fun f => f.isReady)).insertionSort fileOrder).take limit)

/-- FileRepository::update_one_as_ready (src/db/repositories/file.rs lines
283-329): UPDATE files SET is_ready = TRUE WHERE id = $1. -/
def update_one_as_ready (table : List FileRow) (fileId : Nat) : List FileRow :=
  table.map (fun f => if f.id = fileId then { f with isReady := true } else f)

/-- ORDER BY name ASC, id ASC as a total order on collection rows. -/
def collectionOrder (a b : CollectionRow) : Prop :=
  a.name < b.name ∨ (a.name = b.name ∧ a.id ≤ b.id)

instance : DecidableRel collectionOrder := fun _ _ =>
  inferInstanceAs (Decidable (_ ∨ _))

/-- WHERE clause of CollectionRepository::list with a cursor
(src/db/repositories/collections.rs line 60): $1 <= name AND $2 < id. -/
def collectionAfterCursor (c : CollectionCursor) (r : CollectionRow) : Bool :=
  decide (c.name ≤ r.name) && decide (c.id < r.id)

/-- The position predicate of the (name ASC, id ASC) total order: row r sorts
strictly after the cursor position c. -/
def collectionStrictlyAfter (c : CollectionCursor) (r : CollectionRow) : Bool :=
  decide (c.name < r.name) || (decide (c.name = r.name) && decide (c.id < r.id))

/-- CollectionRepository::list (src/db/repositories/collections.rs lines
46-124). -/
def collection_repository_list (table : List CollectionRow) (limit : Nat)
    (cursor : Option CollectionCursor) : List CollectionRow :=
  match cursor with
  | some c =>
      (((table.filter (collectionAfterCursor c)).insertionSort collectionOrder).take
        limit)
  | none => ((table.insertionSort collectionOrder).take limit)

/-- AdminTaskStatus (src/interfaces/dto.rs): pending, in_progress, canceled,
completed, failed. -/
inductive AdminTaskStatus where
  | pending
  | inProgress
  | canceled
  | completed
  | failed
deriving DecidableEq, Repr

/-- AdminTaskInitiator (src/interfaces/dto.rs): user or system. -/
inductive AdminTaskInitiator where
  | user
  | system
deriving DecidableEq, Repr

/-- Row of the admin_tasks table (src/services/admin_task_service.rs,
row_types::AdminTask). -/
structure AdminTaskRow where
  id : Nat
  initiator : AdminTaskInitiator
  name : String
  metadata : Json
  status : AdminTaskStatus
  enqueuedAt : Nat
  updatedAt : Nat

/-- The persistent admin_tasks store: the table plus the id sequence and a
logical clock standing for now(). Every write uses the current clock value
and then advances it, so timestamps taken by later writes are fresh. -/
structure TaskStore where
  tasks : List AdminTaskRow
  nextId : Nat
  clock : Nat

/-- status = 'pending' OR status = 'in_progress', the active-task condition
of AdminTaskService::get_last_active_task. -/
def isActiveStatus (s : AdminTaskStatus) : Bool :=
  s == .pending || s == .inProgress

/-- AdminTaskService::get_last_active_task (src/services/admin_task_service.rs
lines 53-84): WHERE name = $1 AND active, ORDER BY enqueued_at ASC LIMIT 1. -/
def get_last_active_task (st : TaskStore) (name : String) : Option AdminTaskRow :=
  ((st.tasks.filter (fun t => t.name == name && isActiveStatus t.status)).insertionSort
    (fun a b => a.enqueuedAt ≤ b.enqueuedAt)).head?

/-- The row-level effect of the cancellation UPDATE inside enqueue_task
(src/services/admin_task_service.rs line 142): SET status = 'canceled'
WHERE name = $1 AND status != 'canceled'. The updated_at refresh on the
touched rows is the store-trigger behaviour modelled in update_task_status
below. -/
def cancelRow (name : String) (now : Nat) (t : AdminTaskRow) : AdminTaskRow :=
  if t.name = name ∧ t.status ≠ .canceled then
    { t with status := .canceled, updatedAt := now }
  else t

/-- AdminTaskService::enqueue_task (src/services/admin_task_service.rs lines
130-194): inside one transaction, optionally cancel every non-canceled row
with the same name, then INSERT the new row (caller-supplied status, or the
pending default). insertOk models whether the INSERT statement succeeds; when
it fails the transaction is never committed, so the store is returned
unchanged (rollback). -/
def enqueue_task (st : TaskStore) (initiator : AdminTaskInitiator) (name : String)
    (metadata : Json) (status : Option AdminTaskStatus)
    (markPreviousTasksAsCanceled : Bool) (insertOk : Bool) :
    TaskStore × Except Unit AdminTaskRow :=
  let afterCancel :=
    if markPreviousTasksAsCanceled then st.tasks.map (cancelRow name st.clock)
    else st.tasks
  if insertOk then
    let row : AdminTaskRow :=
      { id := st.nextId, initiator := initiator, name := name, metadata := metadata,
        status := status.getD .pending, enqueuedAt := st.clock, updatedAt := st.clock }
    ({ tasks := afterCancel ++ [row], nextId := st.nextId + 1, clock := st.clock + 1 },
      .ok row)
  else
    (st, .error ())

/-- AdminTaskService::update_task_status (src/services/admin_task_service.rs
lines 196-210): UPDATE admin_tasks SET status = $1 WHERE id = $2.
Modelled from the spec: the SQL in src/ does not itself set updated_at; the
refresh of updated_at on every status or metadata write is the behaviour of
the admin_tasks schema, whose migration DDL is not under src/. The spec
states that updated_at changes on every status or metadata write, so the
write stamps the row with the current clock. -/
def update_task_status (st : TaskStore) (taskId : Nat) (status : AdminTaskStatus) :
    TaskStore :=
  { st with
    tasks := st.tasks.map (fun t =>
      if t.id = taskId then { t with status := status, updatedAt := st.clock } else t),
    clock := st.clock + 1 }

/-- AdminTaskService::update_task_metadata (src/services/admin_task_service.rs
lines 212-226): UPDATE admin_tasks SET metadata = $1 WHERE id = $2.
Modelled from the spec: as for update_task_status, the updated_at refresh is
the schema trigger behaviour described by the spec; the DDL is not under
src/. -/
def update_task_metadata (st : TaskStore) (taskId : Nat) (metadata : Json) :
    TaskStore :=
  { st with
    tasks := st.tasks.map (fun t =>
      if t.id = taskId then { t with metadata := metadata, updatedAt := st.clock } else t),
    clock := st.clock + 1 }

/-- Find a task row by id (SELECT ... WHERE id = $1). -/
def findTask (st : TaskStore) (taskId : Nat) : Option AdminTaskRow :=
  st.tasks.find? (fun t => t.id == taskId)

/-- Look up an object field by name, as serde does when deserialising a
struct from a serde_json::Value object. -/
def lookupField (fields : List (String × Json)) (key : String) : Option Json :=
  (fields.find? (fun f => f.1 == key)).map (fun f => f.2)

/-- serde's handling of one Option-typed struct field holding a scalar
(Uuid / DateTime payload, modelled as num): an absent field and an explicit
null both decode to none; a scalar decodes to some; any other shape is a
deserialisation error. -/
def decodeNatField : Option Json → Except Unit (Option Nat)
  | none => .ok none
  | some .null => .ok none
  | some (.num n) => .ok (some n)
  | some _ => .error ()

/-- serde_json::from_value for the files ReIndexTaskMetadata struct
(src/fairings/re_indexer.rs lines 280-284): an object with the two optional
fields last_file_id and last_file_uploaded_at; any non-object value or
wrongly-typed field is a deserialisation error. -/
def decodeFileReIndexMetadata (j : Json) : Except Unit (Option Nat × Option Nat) :=
  match j with
  | .obj fields => do
      let lastId ← decodeNatField (lookupField fields "last_file_id")
      let lastUploadedAt ← decodeNatField (lookupField fields "last_file_uploaded_at")
      return (lastId, lastUploadedAt)
  | _ => .error ()

/-- The cursor match of re_index_task_on_tick_for_task_files
(src/fairings/re_indexer.rs lines 287-293): both fields present make a
cursor, anything else is the null cursor. -/
def cursorFromPair : Option Nat × Option Nat → Option FileCursor
  | (some i, some u) => some { id := i, uploadedAt := u }
  | _ => none

/-- serde_json::to_value for the files ReIndexTaskMetadata struct with both
fields set (src/fairings/re_indexer.rs lines 306-310). -/
def encodeFileReIndexMetadata (lastId lastUploadedAt : Nat) : Json :=
  .obj [("last_file_id", .num lastId), ("last_file_uploaded_at", .num lastUploadedAt)]

/-- The initial metadata a files re-index task is enqueued with: both cursor
fields explicitly null. -/
def nullFileReIndexMetadata : Json :=
  .obj [("last_file_id", .null), ("last_file_uploaded_at", .null)]

/-- ReIndexTaskResult (src/fairings/re_indexer.rs lines 179-184). -/
inductive ReIndexTaskResult where
  | noTask
  | taskNotCompleted
  | taskCompleted
deriving DecidableEq, Repr

/-- The task name the files re-indexer polls (RE_INDEX_FILES_TASK_NAME). -/
def reIndexFilesTaskName : String := "re-index-files"

/-- The task name the collections re-indexer polls
(RE_INDEX_COLLECTIONS_TASK_NAME). -/
def reIndexCollectionsTaskName : String := "re-index-collections"

/-- The world a re-indexer tick acts on: the files and collections tables,
the task store, and the log of batches pushed to the search-index sink
(IndexService::index_files / index_collections calls, in order). -/
structure ReIndexState where
  files : List FileRow
  collections : List CollectionRow
  store : TaskStore
  fileSink : List (List FileRow)
  collectionSink : List (List CollectionRow)

/-- re_index_task_on_tick_for_task_files (src/fairings/re_indexer.rs lines
274-317): decode the cursor from the task's metadata (an undecodable document
is an error; a pair of present fields is a cursor, anything else is the null
cursor), fetch one page of 1000 files, complete on an empty page, otherwise
push the page to the sink (sinkOk models the sink call outcome), then persist
the cursor taken from the page's last file. -/
def re_index_task_on_tick_for_task_files (task : AdminTaskRow) (st : ReIndexState)
    (sinkOk : Bool) : ReIndexState × Except Unit ReIndexTaskResult :=
  match decodeFileReIndexMetadata task.metadata with
  | .error e => (st, .error e)
  | .ok p =>
    let files := list_files st.files 1000 (cursorFromPair p)
    match files.getLast? with
    | none => (st, .ok .taskCompleted)
    | some lastFile =>
      if sinkOk then
        let st := { st with fileSink := st.fileSink ++ [files] }
        let metadata := encodeFileReIndexMetadata lastFile.id lastFile.uploadedAt
        let st := { st with store := update_task_metadata st.store task.id metadata }
        (st, .ok .taskNotCompleted)
      else
        (st, .error ())

/-- re_index_task_on_tick_files (src/fairings/re_indexer.rs lines 186-226):
look up the last active files re-index task (none means an idle tick), mark
it in_progress, run the checkpointed step, mark the task failed when the step
errors and completed when the step reports completion. -/
def re_index_task_on_tick_files (st : ReIndexState) (sinkOk : Bool) :
    ReIndexState × Except Unit ReIndexTaskResult :=
  match get_last_active_task st.store reIndexFilesTaskName with
  | none => (st, .ok .noTask)
  | some task =>
    let st := { st with store := update_task_status st.store task.id .inProgress }
    match re_index_task_on_tick_for_task_files task st sinkOk with
    | (st, .error e) =>
        ({ st with store := update_task_status st.store task.id .failed }, .error e)
    | (st, .ok .taskCompleted) =>
        ({ st with store := update_task_status st.store task.id .completed },
          .ok .taskCompleted)
    | (st, .ok r) => (st, .ok r)

/-- serde_json::from_value for the collections ReIndexTaskMetadata struct
(src/fairings/re_indexer.rs lines 325-331): optional fields
last_collection_id (scalar) and last_collection_name (string). -/
def decodeCollectionReIndexMetadata (j : Json) :
    Except Unit (Option Nat × Option String) :=
  match j with
  | .obj fields => do
      let lastId ← decodeNatField (lookupField fields "last_collection_id")
      let lastName ←
        match lookupField fields "last_collection_name" with
        | none => .ok none
        | some .null => .ok none
        | some (.str s) => .ok (some s)
        | some _ => .error ()
      return (lastId, lastName)
  | _ => .error ()

/-- serde_json::to_value for the collections ReIndexTaskMetadata struct with
both fields set (src/fairings/re_indexer.rs lines 351-355). -/
def encodeCollectionReIndexMetadata (lastId : Nat) (lastName : String) : Json :=
  .obj [("last_collection_id", .num lastId), ("last_collection_name", .str lastName)]

/-- re_index_task_on_tick_for_task_collections (src/fairings/re_indexer.rs
lines 319-362), the collections twin of the files step. -/
def re_index_task_on_tick_for_task_collections (task : AdminTaskRow)
    (st : ReIndexState) (sinkOk : Bool) : ReIndexState × Except Unit ReIndexTaskResult :=
  match decodeCollectionReIndexMetadata task.metadata with
  | .error e => (st, .error e)
  | .ok (lastId, lastName) =>
    let cursor : Option CollectionCursor :=
      match lastId, lastName with
      | some i, some n => some { id := i, name := n }
      | _, _ => none
    let collections := collection_repository_list st.collections 1000 cursor
    match collections.getLast? with
    | none => (st, .ok .taskCompleted)
    | some lastCollection =>
      if sinkOk then
        let st := { st with collectionSink := st.collectionSink ++ [collections] }
        let metadata :=
          encodeCollectionReIndexMetadata lastCollection.id lastCollection.name
        let st := { st with store := update_task_metadata st.store task.id metadata }
        (st, .ok .taskNotCompleted)
      else
        (st, .error ())

/-- re_index_task_on_tick_collections (src/fairings/re_indexer.rs lines
228-272), the collections twin of re_index_task_on_tick_files. -/
def re_index_task_on_tick_collections (st : ReIndexState) (sinkOk : Bool) :
    ReIndexState × Except Unit ReIndexTaskResult :=
  match get_last_active_task st.store reIndexCollectionsTaskName with
  | none => (st, .ok .noTask)
  | some task =>
    let st := { st with store := update_task_status st.store task.id .inProgress }
    match re_index_task_on_tick_for_task_collections task st sinkOk with
    | (st, .error e) =>
        ({ st with store := update_task_status st.store task.id .failed }, .error e)
    | (st, .ok .taskCompleted) =>
        ({ st with store := update_task_status st.store task.id .completed },
          .ok .taskCompleted)
    | (st, .ok r) => (st, .ok r)

/-- The per-entity-type interval choice of the re_index_task loop
(src/fairings/re_indexer.rs lines 141-171): 1 second while work remains,
10 seconds when idle, settled, or failed. -/
def tickDurationSecs : Except Unit ReIndexTaskResult → Nat
  | .ok .noTask => 10
  | .ok .taskNotCompleted => 1
  | .ok .taskCompleted => 10
  | .error _ => 10

/-- One timer tick of the re_index_task loop (src/fairings/re_indexer.rs
lines 121-175): run the files tick then the collections tick on the shared
state, and take the minimum of the two computed intervals as the next loop
interval. -/
def re_index_loop_tick (st : ReIndexState) (sinkOk : Bool) : ReIndexState × Nat :=
  let (st, filesResult) := re_index_task_on_tick_files st sinkOk
  let (st, collectionsResult) := re_index_task_on_tick_collections st sinkOk
  (st, min (tickDurationSecs filesResult) (tickDurationSecs collectionsResult))

/-- n consecutive timer ticks of the re_index_task loop with a healthy sink. -/
def run_re_index_ticks : Nat → ReIndexState → ReIndexState
  | 0, st => st
  | n + 1, st => run_re_index_ticks n (re_index_loop_tick st true).1

/-- The world a GC sweep tick acts on. -/
structure GcState where
  files : List FileRow
  store : TaskStore

/-- The task name the GC sweep records its outcome under (FILE_GC_TASK_NAME). -/
def fileGcTaskName : String := "file-gc"

/-- FileRepository::delete_unready_many (src/db/repositories/file.rs lines
357-401): SELECT the ids of rows with uploaded_at < $1 AND is_ready = FALSE,
then DELETE the rows (and their tags) with those ids. -/
def delete_unready_many (files : List FileRow) (beforeUploadedAt : Nat) :
    List FileRow :=
  let fileIds :=
    (files.filter (fun f => decide (f.uploadedAt < beforeUploadedAt) && !f.isReady)).map
      (fun f => f.id)
  files.filter (fun f => !(fileIds.contains f.id))

/-- file_gc_task_on_tick (src/fairings/file_gc.rs lines 101-127): delete the
not-ready files older than the 2-hour (7200 s) grace window (deleteOk models
the outcome of that call), then enqueue a task recording the sweep outcome,
with status Completed supplied directly and success true/false metadata, and
without cancelling previous tasks. -/
def file_gc_task_on_tick (st : GcState) (now : Nat) (deleteOk : Bool) : GcState :=
  let beforeUploadedAt := now - 7200
  let files := if deleteOk then delete_unready_many st.files beforeUploadedAt else st.files
  let metadata : Json :=
    if deleteOk then .obj [("success", .bool true)]
    else .obj [("success", .bool false), ("error", .str "delete failed")]
  let (store, _) :=
    enqueue_task st.store .system fileGcTaskName metadata (some .completed) false true
  { files := files, store := store }

/-! ### Generic helper lemmas about the embedded query pipelines -/

/-- Membership in a WHERE / ORDER BY / LIMIT pipeline implies membership in
the filtered table, hence that the WHERE predicate held. -/
theorem mem_filter_of_mem_sort_take {α : Type} {r : α → α → Prop} [DecidableRel r]
    {p : α → Bool} {table : List α} {limit : Nat} {x : α}
    (h : x ∈ ((table.filter p).insertionSort r).take limit) : x ∈ table ∧ p x = true := by
  have hx : x ∈ (table.filter p).insertionSort r :=
    ((List.take_sublist limit _).subset h)
  have hx' : x ∈ table.filter p := (List.mem_insertionSort r).mp hx
  exact ⟨(List.mem_filter.mp hx').1, (List.mem_filter.mp hx').2⟩

/-- Membership in the cursorless ORDER BY / LIMIT pipeline implies membership
in the table. -/
theorem mem_of_mem_sort_take {α : Type} {r : α → α → Prop} [DecidableRel r]
    {table : List α} {limit : Nat} {x : α}
    (h : x ∈ (table.insertionSort r).take limit) : x ∈ table :=
  (List.mem_insertionSort r).mp ((List.take_sublist limit _).subset h)

/-! ### C10 — repository listing returns only ready files -/

/-- C10: Only ready files are visible to paging — every file returned by
FileRepository::list, with or without a cursor, satisfies is_ready = TRUE,
so a file never marked ready is never part of any returned page (and hence
never enters a batch built from such pages). -/
theorem C10_repository_list_only_ready (table : List FileRow) (limit : Nat)
    (cursor : Option FileCursor) (f : FileRow)
    (h : f ∈ file_repository_list table limit cursor) : f.isReady = true := by
  cases cursor with
  | none =>
      have := (mem_filter_of_mem_sort_take (r := fileOrder) h).2
      simpa using this
  | some c =>
      have := (mem_filter_of_mem_sort_take (r := fileOrder) h).2
      exact (Bool.and_eq_true _ _ |>.mp this).2

/-- Witness for C10 at a concrete table: the single ready row is returned and
the theorem yields its readiness. -/
theorem C10_repository_list_only_ready_witness :
    ({ id := 1, uploadedAt := 5, isReady := true } : FileRow).isReady = true :=
  C10_repository_list_only_ready
    [{ id := 1, uploadedAt := 5, isReady := true },
      { id := 2, uploadedAt := 9, isReady := false }] 10 none
    { id := 1, uploadedAt := 5, isReady := true } (by decide)

/-! ### C9 — GC sweep deletion scope -/

/-- delete_unready_many keeps exactly the rows that are ready or young,
provided ids are unique (the files table's primary key). -/
theorem mem_delete_unready_many (files : List FileRow) (before : Nat)
    (hnodup : (files.map (fun f => f.id)).Nodup) (f : FileRow) (hf : f ∈ files) :
    f ∈ delete_unready_many files before ↔
      ¬(f.uploadedAt < before ∧ f.isReady = false) := by
  unfold delete_unready_many
  rw [List.mem_filter]
  constructor
  · rintro ⟨-, hc⟩ ⟨hold, hready⟩
    have hcond : (decide (f.uploadedAt < before) && !f.isReady) = true := by
      simp [hold, hready]
    have hmem : f.id ∈
        ((files.filter (fun g => decide (g.uploadedAt < before) && !g.isReady)).map
          (fun g => g.id)) :=
      List.mem_map_of_mem _ (List.mem_filter.mpr ⟨hf, hcond⟩)
    rw [Bool.not_eq_true', ← Bool.not_eq_true] at hc
    exact hc (by simpa using hmem)
  · intro hkeep
    refine ⟨hf, ?_⟩
    rw [Bool.not_eq_true']
    rw [← Bool.not_eq_true]
    intro hcontains
    have hmem : f.id ∈
        ((files.filter (fun g => decide (g.uploadedAt < before) && !g.isReady)).map
          (fun g => g.id)) := by
      simpa using hcontains
    obtain ⟨g, hg, hgid⟩ := List.mem_map.mp hmem
    have hgfiles : g ∈ files := (List.mem_filter.mp hg).1
    have hgcond := (List.mem_filter.mp hg).2
    have : g = f := List.inj_on_of_nodup_map hnodup hgfiles hf hgid
    subst this
    simp only [Bool.and_eq_true, decide_eq_true_eq, Bool.not_eq_true'] at hgcond
    exact hkeep hgcond

/-- C9: One GC sweep tick deletes exactly the not-ready files older than the
2-hour grace window: every ready file is untouched regardless of age, every
not-ready file younger than the window is untouched, and the sweep records
its outcome as a directly-terminal Completed task carrying success metadata
(success false with the error on a failed delete, with the files untouched). -/
theorem C9_gc_sweep_scope (st : GcState) (now : Nat)
    (hnodup : (st.files.map (fun f => f.id)).Nodup) :
    (∀ f ∈ st.files,
      (f ∈ (file_gc_task_on_tick st now true).files ↔
        ¬(f.uploadedAt < now - 7200 ∧ f.isReady = false))) ∧
    (∀ f ∈ (file_gc_task_on_tick st now true).files, f ∈ st.files) ∧
    (∃ row, (file_gc_task_on_tick st now true).store.tasks = st.store.tasks ++ [row] ∧
      row.name = fileGcTaskName ∧ row.initiator = .system ∧ row.status = .completed ∧
      row.metadata = Json.obj [("success", .bool true)]) ∧
    ((file_gc_task_on_tick st now false).files = st.files ∧
      ∃ row, (file_gc_task_on_tick st now false).store.tasks = st.store.tasks ++ [row] ∧
        row.status = .completed ∧
        row.metadata = Json.obj [("success", .bool false), ("error", .str "delete failed")]) := by
  refine ⟨?_, ?_, ?_, ?_, ?_⟩
  · intro f hf
    exact mem_delete_unready_many st.files (now - 7200) hnodup f hf
  · intro f hf
    have : f ∈ st.files.filter _ := hf
    exact (List.mem_filter.mp this).1
  · exact ⟨_, rfl, rfl, rfl, rfl, rfl⟩
  · exact rfl
  · exact ⟨_, rfl, rfl, rfl⟩

/-- Witness for C9 on a concrete state: a 3-hour-old unready file, a same-age
ready file and a fresh unready file, swept at now = 20000 (grace cutoff
12800). -/
theorem C9_gc_sweep_scope_witness :
    (({ id := 1, uploadedAt := 9200, isReady := false } : FileRow) ∈
        (file_gc_task_on_tick
          { files := [{ id := 1, uploadedAt := 9200, isReady := false },
              { id := 2, uploadedAt := 9200, isReady := true },
              { id := 3, uploadedAt := 19000, isReady := false }],
            store := { tasks := [], nextId := 0, clock := 0 } } 20000 true).files ↔
      ¬((9200 : Nat) < 20000 - 7200 ∧ false = false)) := by
  have h := (C9_gc_sweep_scope
    { files := [{ id := 1, uploadedAt := 9200, isReady := false },
        { id := 2, uploadedAt := 9200, isReady := true },
        { id := 3, uploadedAt := 19000, isReady := false }],
      store := { tasks := [], nextId := 0, clock := 0 } } 20000 (by decide)).1
  exact h { id := 1, uploadedAt := 9200, isReady := false } (by decide)

/-! ### C4 — what enqueue's cancellation touches -/

/-- A concrete same-name task already in the terminal status Completed. -/
def completedTaskFixture : AdminTaskRow where
  id := 7
  initiator := .user
  name := "re-index-files"
  metadata := .null
  status := .completed
  enqueuedAt := 3
  updatedAt := 4

/-- A concrete store holding only completedTaskFixture. -/
def completedStoreFixture : TaskStore where
  tasks := [completedTaskFixture]
  nextId := 8
  clock := 9

/-- C4 counterexample: the cancellation UPDATE's condition is
status != 'canceled', not "status is Pending or InProgress", so a same-name
task already in the terminal status Completed does not keep its status: the
enqueue with cancel_previous=true turns it Canceled. -/
theorem C4_counterexample :
    ((enqueue_task completedStoreFixture .user "re-index-files" .null none true
        true).1.tasks.map (fun t => t.status)) = [.canceled, .pending] := by decide

/-- C4 (amended): enqueue with cancel_previous=true marks as Canceled every
existing same-name task that is not already Canceled — including tasks in the
terminal statuses Completed and Failed; only already-Canceled tasks and
tasks with a different name keep their row unchanged. -/
theorem C4_cancellation_scope (st : TaskStore) (initiator : AdminTaskInitiator)
    (name : String) (metadata : Json) (status : Option AdminTaskStatus)
    (i : Nat) (hi : i < st.tasks.length) :
    ((st.tasks.get ⟨i, hi⟩).name = name ∧ (st.tasks.get ⟨i, hi⟩).status ≠ .canceled →
      (enqueue_task st initiator name metadata status true true).1.tasks.get? i =
        some { st.tasks.get ⟨i, hi⟩ with status := .canceled, updatedAt := st.clock }) ∧
    ((st.tasks.get ⟨i, hi⟩).status = .canceled ∨ (st.tasks.get ⟨i, hi⟩).name ≠ name →
      (enqueue_task st initiator name metadata status true true).1.tasks.get? i =
        some (st.tasks.get ⟨i, hi⟩)) := by
  have hmap : (enqueue_task st initiator name metadata status true true).1.tasks.get? i =
      some (cancelRow name st.clock (st.tasks.get ⟨i, hi⟩)) := by
    show ((st.tasks.map (cancelRow name st.clock)) ++ _).get? i = _
    rw [List.get?_append (by simpa using hi)]
    rw [List.get?_eq_get (by simpa using hi)]
    simp
  constructor
  · rintro ⟨hname, hst⟩
    rw [hmap]
    unfold cancelRow
    rw [if_pos ⟨hname, hst⟩]
  · intro h
    rw [hmap]
    unfold cancelRow
    rw [if_neg]
    rintro ⟨hname, hst⟩
    rcases h with h | h
    · exact hst h
    · exact h hname

/-- Witness for C4's amended theorem: the Completed same-name fixture task at
index 0 is turned Canceled by the enqueue. -/
theorem C4_cancellation_scope_witness :
    ((completedStoreFixture.tasks.get ⟨0, by decide⟩).name = "re-index-files" ∧
      (completedStoreFixture.tasks.get ⟨0, by decide⟩).status ≠ .canceled) ∧
    (enqueue_task completedStoreFixture .user "re-index-files" .null none true
        true).1.tasks.get? 0 =
      some { completedTaskFixture with status := .canceled, updatedAt := 9 } := by
  refine ⟨⟨rfl, by decide⟩, ?_⟩
  exact (C4_cancellation_scope completedStoreFixture .user "re-index-files" .null none
    0 (by decide)).1 ⟨rfl, by decide⟩

/-! ### C6 — updated_at freshness of status and metadata writes -/

/-- Looking up a task by id after update_task_status sees the same row with
the new status and the write-time updated_at stamp. -/
theorem findTask_update_task_status (st : TaskStore) (taskId : Nat)
    (s : AdminTaskStatus) :
    findTask (update_task_status st taskId s) taskId =
      (findTask st taskId).map
        (fun t => { t with status := s, updatedAt := st.clock }) := by
  unfold findTask update_task_status
  rw [List.find?_map]
  have hp : ((fun t : AdminTaskRow => t.id == taskId) ∘
      (fun t : AdminTaskRow =>
        if t.id = taskId then { t with status := s, updatedAt := st.clock } else t)) =
      (fun t : AdminTaskRow => t.id == taskId) := by
    funext t
    by_cases h : t.id = taskId <;> simp [h]
  rw [hp]
  cases hfind : st.tasks.find? (fun t => t.id == taskId) with
  | none => rfl
  | some t₀ =>
      have : t₀.id = taskId := by simpa using List.find?_some hfind
      simp [this]

/-- Looking up a task by id after update_task_metadata sees the same row with
the new metadata and the write-time updated_at stamp. -/
theorem findTask_update_task_metadata (st : TaskStore) (taskId : Nat) (md : Json) :
    findTask (update_task_metadata st taskId md) taskId =
      (findTask st taskId).map
        (fun t => { t with metadata := md, updatedAt := st.clock }) := by
  unfold findTask update_task_metadata
  rw [List.find?_map]
  have hp : ((fun t : AdminTaskRow => t.id == taskId) ∘
      (fun t : AdminTaskRow =>
        if t.id = taskId then { t with metadata := md, updatedAt := st.clock } else t)) =
      (fun t : AdminTaskRow => t.id == taskId) := by
    funext t
    by_cases h : t.id = taskId <;> simp [h]
  rw [hp]
  cases hfind : st.tasks.find? (fun t => t.id == taskId) with
  | none => rfl
  | some t₀ =>
      have : t₀.id = taskId := by simpa using List.find?_some hfind
      simp [this]

/-- C6: every update_task_status call and every update_task_metadata call on
an existing task changes that task's updated_at: the write stamps the row
with the current clock, which is strictly later than every timestamp already
in the store. -/
theorem C6_updated_at_changes (st : TaskStore)
    (hwf : ∀ t ∈ st.tasks, t.updatedAt < st.clock) (taskId : Nat)
    (hfound : (findTask st taskId).isSome = true) (s : AdminTaskStatus) (md : Json) :
    (findTask (update_task_status st taskId s) taskId).map (fun t => t.updatedAt) ≠
      (findTask st taskId).map (fun t => t.updatedAt) ∧
    (findTask (update_task_metadata st taskId md) taskId).map (fun t => t.updatedAt) ≠
      (findTask st taskId).map (fun t => t.updatedAt) := by
  obtain ⟨t₀, ht₀⟩ := Option.isSome_iff_exists.mp hfound
  have hmem : t₀ ∈ st.tasks := List.mem_of_find?_eq_some ht₀
  have hlt : t₀.updatedAt < st.clock := hwf t₀ hmem
  constructor
  · rw [findTask_update_task_status, ht₀]
    simp only [Option.map_some']
    intro h
    have := Option.some.inj h
    omega
  · rw [findTask_update_task_metadata, ht₀]
    simp only [Option.map_some']
    intro h
    have := Option.some.inj h
    omega

/-- Witness for C6 on the concrete fixture store: updating task 7's status
changes its updated_at. -/
theorem C6_updated_at_changes_witness :
    (findTask (update_task_status completedStoreFixture 7 .inProgress) 7).map
        (fun t => t.updatedAt) ≠
      (findTask completedStoreFixture 7).map (fun t => t.updatedAt) :=
  (C6_updated_at_changes completedStoreFixture (by decide) 7 (by decide)
    .inProgress .null).1

/-! ### C3 — single active task per name after enqueue with cancel_previous -/

/-- The row INSERTed by enqueue_task (id from the sequence, caller status or
the pending default, timestamps from now()). -/
def enqueuedRow (st : TaskStore) (initiator : AdminTaskInitiator) (name : String)
    (metadata : Json) (status : Option AdminTaskStatus) : AdminTaskRow where
  id := st.nextId
  initiator := initiator
  name := name
  metadata := metadata
  status := status.getD .pending
  enqueuedAt := st.clock
  updatedAt := st.clock

/-- The table produced by a successful enqueue with cancel_previous=true:
all rows run through the cancellation UPDATE, then the new row. -/
theorem enqueue_task_tasks_eq (st : TaskStore) (initiator : AdminTaskInitiator)
    (name : String) (metadata : Json) (status : Option AdminTaskStatus) :
    (enqueue_task st initiator name metadata status true true).1.tasks =
      st.tasks.map (cancelRow name st.clock) ++
        [enqueuedRow st initiator name metadata status] := rfl

/-- C3: after a successful enqueue with cancel_previous=true, every task with
that name in Pending or InProgress is the newly inserted row (at most one
active task per name); the cancellation and the insertion are atomic — with a
failing INSERT the transaction rolls back and the store is exactly unchanged;
and two successive such enqueues starting from a store with no tasks of that
name leave exactly one Pending/InProgress task and exactly one Canceled
task with that name. -/
theorem C3_single_active_task (st : TaskStore) (initiator : AdminTaskInitiator)
    (name : String) (metadata : Json) (status : Option AdminTaskStatus) :
    (∀ t ∈ (enqueue_task st initiator name metadata status true true).1.tasks,
      t.name = name → isActiveStatus t.status = true →
      t = enqueuedRow st initiator name metadata status) ∧
    (enqueue_task st initiator name metadata status true false = (st, .error ())) ∧
    ((∀ t ∈ st.tasks, t.name ≠ name) →
      (((enqueue_task ((enqueue_task st initiator name metadata none true true).1)
          initiator name metadata none true true).1.tasks.filter
          (fun t => t.name == name && isActiveStatus t.status)).length = 1 ∧
        ((enqueue_task ((enqueue_task st initiator name metadata none true true).1)
          initiator name metadata none true true).1.tasks.filter
          (fun t => t.name == name && t.status == AdminTaskStatus.canceled)).length =
          1)) := by
  refine ⟨?_, rfl, ?_⟩
  · intro t ht hname hactive
    rw [enqueue_task_tasks_eq] at ht
    rcases List.mem_append.mp ht with ht | ht
    · exfalso
      obtain ⟨u, hu, hcancel⟩ := List.mem_map.mp ht
      unfold cancelRow at hcancel
      by_cases hcond : u.name = name ∧ u.status ≠ .canceled
      · rw [if_pos hcond] at hcancel
        rw [← hcancel] at hactive
        simp [isActiveStatus] at hactive
      · rw [if_neg hcond] at hcancel
        subst hcancel
        rw [Decidable.not_and_iff_or_not] at hcond
        rcases hcond with hcond | hcond
        · exact hcond hname
        · rw [Decidable.not_not] at hcond
          rw [hcond] at hactive
          simp [isActiveStatus] at hactive
    · simpa using ht
  · intro hnone
    have hrow1 : (enqueuedRow st initiator name metadata none).name = name := rfl
    have hmapnone : ∀ (clk : Nat) (t : AdminTaskRow), t ∈ st.tasks →
        (cancelRow name clk t).name ≠ name := by
      intro clk t ht
      unfold cancelRow
      by_cases hcond : t.name = name ∧ t.status ≠ .canceled
      · exact absurd hcond.1 (hnone t ht)
      · rw [if_neg hcond]
        exact hnone t ht
    constructor
    · rw [enqueue_task_tasks_eq, enqueue_task_tasks_eq, List.map_append,
        List.filter_append, List.filter_append]
      have h1 : ((st.tasks.map (cancelRow name st.clock)).map
          (cancelRow name ((enqueue_task st initiator name metadata none true
            true).1.clock))).filter
          (fun t => t.name == name && isActiveStatus t.status) = [] := by
        rw [List.filter_eq_nil_iff]
        intro t ht
        obtain ⟨u, hu, hcu⟩ := List.mem_map.mp ht
        obtain ⟨v, hv, hcv⟩ := List.mem_map.mp hu
        have : t.name ≠ name := by
          rw [← hcu]
          unfold cancelRow
          by_cases hcond : u.name = name ∧ u.status ≠ .canceled
          · exact absurd (hcv ▸ hcond.1) (hmapnone st.clock v hv)
          · rw [if_neg hcond]
            rw [← hcv]
            exact hmapnone st.clock v hv
        simp [this]
      rw [h1]
      simp [cancelRow, enqueuedRow, isActiveStatus]
    · rw [enqueue_task_tasks_eq, enqueue_task_tasks_eq, List.map_append,
        List.filter_append, List.filter_append]
      have h1 : ((st.tasks.map (cancelRow name st.clock)).map
          (cancelRow name ((enqueue_task st initiator name metadata none true
            true).1.clock))).filter
          (fun t => t.name == name && t.status == AdminTaskStatus.canceled) = [] := by
        rw [List.filter_eq_nil_iff]
        intro t ht
        obtain ⟨u, hu, hcu⟩ := List.mem_map.mp ht
        obtain ⟨v, hv, hcv⟩ := List.mem_map.mp hu
        have : t.name ≠ name := by
          rw [← hcu]
          unfold cancelRow
          by_cases hcond : u.name = name ∧ u.status ≠ .canceled
          · exact absurd (hcv ▸ hcond.1) (hmapnone st.clock v hv)
          · rw [if_neg hcond]
            rw [← hcv]
            exact hmapnone st.clock v hv
        simp [this]
      rw [h1]
      simp [cancelRow, enqueuedRow]

/-- Witness for C3 on a concrete store holding one unrelated task: the double
enqueue leaves exactly one active and one canceled "re-index-files" task. -/
theorem C3_single_active_task_witness :
    (∀ t ∈ completedStoreFixture.tasks, t.name ≠ "gc") ∧
    (((enqueue_task ((enqueue_task completedStoreFixture .user "gc" .null none true
        true).1) .user "gc" .null none true true).1.tasks.filter
        (fun t => t.name == "gc" && isActiveStatus t.status)).length = 1 ∧
      ((enqueue_task ((enqueue_task completedStoreFixture .user "gc" .null none true
        true).1) .user "gc" .null none true true).1.tasks.filter
        (fun t => t.name == "gc" && t.status == AdminTaskStatus.canceled)).length =
        1) := by
  refine ⟨by decide, ?_⟩
  exact (C3_single_active_task completedStoreFixture .user "gc" .null none).2.2
    (by decide)

/-! ### C5 — sink-failure atomicity of a tick -/

/-- A task returned by get_last_active_task is a row of the store matching
the name-and-active condition. -/
theorem get_last_active_task_mem {st : TaskStore} {name : String} {task : AdminTaskRow}
    (h : get_last_active_task st name = some task) :
    task ∈ st.tasks ∧ (task.name == name && isActiveStatus task.status) = true := by
  unfold get_last_active_task at h
  obtain ⟨ys, hys⟩ := List.head?_eq_some_iff.mp h
  have hmem : task ∈ (st.tasks.filter
      (fun t => t.name == name && isActiveStatus t.status)).insertionSort
      (fun a b => a.enqueuedAt ≤ b.enqueuedAt) := by
    rw [hys]
    exact List.mem_cons_self _ _
  have hmem' := (List.mem_insertionSort _).mp hmem
  exact ⟨(List.mem_filter.mp hmem').1, (List.mem_filter.mp hmem').2⟩

/-- C5: a tick whose index-sink call fails leaves the task's persisted
metadata (the cursor) exactly unchanged, makes the tick report the error, and
leaves the task in status Failed; the files and the sink log are untouched.
The hypotheses state that the sink call is actually reached: an active task
exists, its metadata decodes, and the fetched page is non-empty. -/
theorem C5_sink_failure_atomicity (st : ReIndexState) (task : AdminTaskRow)
    (p : Option Nat × Option Nat)
    (h1 : get_last_active_task st.store reIndexFilesTaskName = some task)
    (h2 : decodeFileReIndexMetadata task.metadata = .ok p)
    (h3 : list_files st.files 1000 (cursorFromPair p) ≠ []) :
    (re_index_task_on_tick_files st false).2 = .error () ∧
    (re_index_task_on_tick_files st false).1.fileSink = st.fileSink ∧
    (findTask (re_index_task_on_tick_files st false).1.store task.id).map
        (fun t => t.metadata) =
      (findTask st.store task.id).map (fun t => t.metadata) ∧
    (findTask (re_index_task_on_tick_files st false).1.store task.id).map
        (fun t => t.status) = some .failed ∧
    (re_index_task_on_tick_files st false).1.files = st.files := by
  obtain ⟨last, hlast⟩ :
      ∃ last, (list_files st.files 1000 (cursorFromPair p)).getLast? = some last := by
    cases hl : (list_files st.files 1000 (cursorFromPair p)).getLast? with
    | none => exact absurd (List.getLast?_eq_none_iff.mp hl) h3
    | some last => exact ⟨last, rfl⟩
  have hfound : (findTask st.store task.id).isSome = true := by
    simp only [findTask, List.find?_isSome]
    exact ⟨task, (get_last_active_task_mem h1).1, by simp⟩
  obtain ⟨t₀, ht₀⟩ := Option.isSome_iff_exists.mp hfound
  have hrun : re_index_task_on_tick_files st false =
      ({ st with store := update_task_status (update_task_status st.store task.id AdminTaskStatus.inProgress) task.id AdminTaskStatus.failed }, .error ()) := by
    simp [re_index_task_on_tick_files, h1, re_index_task_on_tick_for_task_files,
      h2, hlast]
  rw [hrun]
  refine ⟨rfl, rfl, ?_, ?_, rfl⟩
  · rw [findTask_update_task_status, findTask_update_task_status, ht₀]
    rfl
  · rw [findTask_update_task_status, findTask_update_task_status, ht₀]
    rfl

/-- A one-row files table whose single row is ready. -/
def oneFileTable : List FileRow := [{ id := 4, uploadedAt := 6, isReady := true }]

/-- A store holding one pending files re-index task with null-cursor
metadata, as produced by a fresh enqueue. -/
def pendingReIndexStoreFixture : TaskStore :=
  (enqueue_task { tasks := [], nextId := 0, clock := 0 } .user reIndexFilesTaskName
    nullFileReIndexMetadata none true true).1

/-- The re-index world the C5 and C7 witnesses run a tick on. -/
def reIndexStateFixture : ReIndexState where
  files := oneFileTable
  collections := []
  store := pendingReIndexStoreFixture
  fileSink := []
  collectionSink := []

/-- Witness for C5 on the fixture world: the failing-sink tick reports the
error and leaves the task Failed with its metadata untouched. -/
theorem C5_sink_failure_atomicity_witness :
    (re_index_task_on_tick_files reIndexStateFixture false).2 = .error () ∧
    (re_index_task_on_tick_files reIndexStateFixture false).1.fileSink =
      reIndexStateFixture.fileSink ∧
    (findTask (re_index_task_on_tick_files reIndexStateFixture false).1.store 0).map
        (fun t => t.metadata) =
      (findTask reIndexStateFixture.store 0).map (fun t => t.metadata) ∧
    (findTask (re_index_task_on_tick_files reIndexStateFixture false).1.store 0).map
        (fun t => t.status) = some .failed ∧
    (re_index_task_on_tick_files reIndexStateFixture false).1.files =
      reIndexStateFixture.files := by
  have h := C5_sink_failure_atomicity reIndexStateFixture
    (enqueuedRow { tasks := [], nextId := 0, clock := 0 } .user reIndexFilesTaskName
      nullFileReIndexMetadata none)
    (none, none) rfl rfl (by decide)
  exact h

/-! ### C7 — handling of malformed task metadata -/

/-- A store whose files re-index task carries metadata that is not an object
at all (serde cannot decode it as the cursor struct). -/
def malformedStoreFixture : TaskStore :=
  (enqueue_task { tasks := [], nextId := 0, clock := 0 } .user reIndexFilesTaskName
    (Json.num 7) none true true).1

/-- The re-index world holding the malformed-metadata task. -/
def malformedStateFixture : ReIndexState where
  files := oneFileTable
  collections := []
  store := malformedStoreFixture
  fileSink := []
  collectionSink := []

/-- C7 counterexample: a tick on an active task whose metadata document is
not decodable as the cursor struct (here a bare number) does fail the tick
and does mark the task Failed, contradicting "never causes the tick to fail
or the task to be marked Failed". -/
theorem C7_counterexample :
    (re_index_task_on_tick_files malformedStateFixture true).2 = .error () ∧
    ((re_index_task_on_tick_files malformedStateFixture true).1.store.tasks.map
      (fun t => t.status)) = [.failed] :=
  ⟨rfl, rfl⟩

/-- C7 (amended): metadata whose cursor fields are merely missing or null
decodes to the null cursor, and the tick proceeds to fetch the first page —
completing on an empty source or pushing the first page — without failing;
but metadata the cursor struct cannot be decoded from (a non-object, or a
wrongly-typed field) makes the tick fail and the task Failed. -/
theorem C7_metadata_handling (st : ReIndexState) (task : AdminTaskRow)
    (p : Option Nat × Option Nat)
    (h1 : get_last_active_task st.store reIndexFilesTaskName = some task) :
    (decodeFileReIndexMetadata task.metadata = .ok p → cursorFromPair p = none →
      (list_files st.files 1000 none = [] →
        (re_index_task_on_tick_files st true).2 = .ok .taskCompleted ∧
        (findTask (re_index_task_on_tick_files st true).1.store task.id).map
          (fun t => t.status) = some .completed) ∧
      (list_files st.files 1000 none ≠ [] →
        (re_index_task_on_tick_files st true).2 = .ok .taskNotCompleted ∧
        (re_index_task_on_tick_files st true).1.fileSink =
          st.fileSink ++ [list_files st.files 1000 none] ∧
        (findTask (re_index_task_on_tick_files st true).1.store task.id).map
          (fun t => t.status) = some .inProgress)) ∧
    (decodeFileReIndexMetadata task.metadata = .error () →
      (re_index_task_on_tick_files st true).2 = .error () ∧
      (findTask (re_index_task_on_tick_files st true).1.store task.id).map
        (fun t => t.status) = some .failed) := by
  have hfound : (findTask st.store task.id).isSome = true := by
    simp only [findTask, List.find?_isSome]
    exact ⟨task, (get_last_active_task_mem h1).1, by simp⟩
  obtain ⟨t₀, ht₀⟩ := Option.isSome_iff_exists.mp hfound
  refine ⟨fun hdec hcur => ⟨fun hempty => ?_, fun hne => ?_⟩, fun herr => ?_⟩
  · have hrun : re_index_task_on_tick_files st true =
        ({ st with store := update_task_status (update_task_status st.store task.id AdminTaskStatus.inProgress) task.id AdminTaskStatus.completed }, .ok .taskCompleted) := by
      simp [re_index_task_on_tick_files, h1, re_index_task_on_tick_for_task_files,
        hdec, hcur, hempty]
    rw [hrun]
    refine ⟨rfl, ?_⟩
    rw [findTask_update_task_status, findTask_update_task_status, ht₀]
    rfl
  · obtain ⟨last, hlast⟩ :
        ∃ last, (list_files st.files 1000 none).getLast? = some last := by
      cases hl : (list_files st.files 1000 none).getLast? with
      | none => exact absurd (List.getLast?_eq_none_iff.mp hl) hne
      | some last => exact ⟨last, rfl⟩
    have hrun : re_index_task_on_tick_files st true =
        ({ st with
            fileSink := st.fileSink ++ [list_files st.files 1000 none],
            store := update_task_metadata (update_task_status st.store task.id AdminTaskStatus.inProgress) task.id (encodeFileReIndexMetadata last.id last.uploadedAt) },
          .ok .taskNotCompleted) := by
      simp [re_index_task_on_tick_files, h1, re_index_task_on_tick_for_task_files,
        hdec, hcur, hlast]
    rw [hrun]
    refine ⟨rfl, rfl, ?_⟩
    rw [findTask_update_task_metadata, findTask_update_task_status, ht₀]
    rfl
  · have hrun : re_index_task_on_tick_files st true =
        ({ st with store := update_task_status (update_task_status st.store task.id AdminTaskStatus.inProgress) task.id AdminTaskStatus.failed }, .error ()) := by
      simp [re_index_task_on_tick_files, h1, re_index_task_on_tick_for_task_files, herr]
    rw [hrun]
    refine ⟨rfl, ?_⟩
    rw [findTask_update_task_status, findTask_update_task_status, ht₀]
    rfl

/-- Witness for C7's amended theorem on the fixture world: the null-field
metadata task proceeds to push the first page and ends the tick InProgress. -/
theorem C7_metadata_handling_witness :
    (re_index_task_on_tick_files reIndexStateFixture true).2 = .ok .taskNotCompleted ∧
    (re_index_task_on_tick_files reIndexStateFixture true).1.fileSink =
      reIndexStateFixture.fileSink ++ [list_files reIndexStateFixture.files 1000 none] ∧
    (findTask (re_index_task_on_tick_files reIndexStateFixture true).1.store 0).map
      (fun t => t.status) = some .inProgress :=
  (((C7_metadata_handling reIndexStateFixture
      (enqueuedRow { tasks := [], nextId := 0, clock := 0 } .user reIndexFilesTaskName
        nullFileReIndexMetadata none)
      (none, none) rfl).1 rfl rfl).2 (by decide))

/-! ### C1 — keyset pagination: no revisit holds, no skip fails -/

/-- C1 counterexample: with files f1 = (id 5, uploaded_at 10) and
f2 = (id 3, uploaded_at 5) and page size 1, the first page returns f1 and
issues the cursor (5, 10); f2 sorts strictly after that cursor position in
the (uploaded_at DESC, id ASC) order, yet the next page request — at page
size 1 and even at page size 1000 — returns nothing, because the WHERE
clause uploaded_at <= $1 AND id > $2 rejects every row whose id is not past
the cursor's id. The row is skipped and the scan terminates on the empty
page. -/
theorem C1_counterexample :
    list_files
        [{ id := 5, uploadedAt := 10, isReady := true },
          { id := 3, uploadedAt := 5, isReady := true }] 1 none =
      [{ id := 5, uploadedAt := 10, isReady := true }] ∧
    fileStrictlyAfter { id := 5, uploadedAt := 10 }
      { id := 3, uploadedAt := 5, isReady := true } = true ∧
    list_files
        [{ id := 5, uploadedAt := 10, isReady := true },
          { id := 3, uploadedAt := 5, isReady := true }] 1
        (some { id := 5, uploadedAt := 10 }) = [] ∧
    list_files
        [{ id := 5, uploadedAt := 10, isReady := true },
          { id := 3, uploadedAt := 5, isReady := true }] 1000
        (some { id := 5, uploadedAt := 10 }) = [] := by decide

/-- C1 (amended): the no-revisit half holds — every row a cursor page
returns sorts strictly after the cursor position in the listing's
(primary_field, id) lexicographic order, for both the files listing
(uploaded_at DESC, id ASC) and the collections listing (name ASC, id ASC).
The no-skip half fails: a row strictly after the cursor position whose id is
not past the cursor's id is never returned by continued paging (see the
counterexample). -/
theorem C1_no_revisit :
    (∀ (table : List FileRow) (limit : Nat) (c : FileCursor) (f : FileRow),
      f ∈ list_files table limit (some c) → fileStrictlyAfter c f = true) ∧
    (∀ (table : List CollectionRow) (limit : Nat) (c : CollectionCursor)
      (r : CollectionRow),
      r ∈ collection_repository_list table limit (some c) →
        collectionStrictlyAfter c r = true) := by
  constructor
  · intro table limit c f hf
    change f ∈ ((table.filter (fileAfterCursor c)).insertionSort fileOrder).take limit
      at hf
    have hp := (mem_filter_of_mem_sort_take (r := fileOrder) hf).2
    unfold fileAfterCursor at hp
    unfold fileStrictlyAfter
    simp only [Bool.and_eq_true, decide_eq_true_eq] at hp
    simp only [Bool.or_eq_true, Bool.and_eq_true, decide_eq_true_eq]
    omega
  · intro table limit c r hr
    change r ∈
      ((table.filter (collectionAfterCursor c)).insertionSort collectionOrder).take limit
      at hr
    have hp := (mem_filter_of_mem_sort_take (r := collectionOrder) hr).2
    unfold collectionAfterCursor at hp
    unfold collectionStrictlyAfter
    simp only [Bool.and_eq_true, decide_eq_true_eq] at hp
    simp only [Bool.or_eq_true, Bool.and_eq_true, decide_eq_true_eq]
    rcases lt_or_eq_of_le hp.1 with h | h
    · exact Or.inl h
    · exact Or.inr ⟨h, hp.2⟩

/-- Witness for C1's amended theorem at concrete pages of both listings. -/
theorem C1_no_revisit_witness :
    fileStrictlyAfter { id := 0, uploadedAt := 100 }
      { id := 5, uploadedAt := 10, isReady := true } = true ∧
    collectionStrictlyAfter { id := 0, name := "a" } { id := 5, name := "b" } = true := by
  constructor
  · exact C1_no_revisit.1
      [{ id := 5, uploadedAt := 10, isReady := true },
        { id := 3, uploadedAt := 5, isReady := true }] 2
      { id := 0, uploadedAt := 100 }
      { id := 5, uploadedAt := 10, isReady := true } (by decide)
  · exact C1_no_revisit.2 [{ id := 5, name := "b" }] 2 { id := 0, name := "a" }
      { id := 5, name := "b" } (by
        simp [collection_repository_list, collectionAfterCursor, List.filter,
          List.insertionSort, List.orderedInsert])

/-! ### Aligned sources: tables whose ids ascend along the listing order.

The conjunction cursor predicate of list_files only walks a table without
skipping when the id order agrees with the (uploaded_at DESC, id ASC)
listing order; these lemmas characterise the pages it produces there. -/

/-- The cursor taken from a row, as re_index_task_on_tick_for_task_files
persists it: the row's id and uploaded_at. -/
def fileCursorOf (f : FileRow) : FileCursor where
  id := f.id
  uploadedAt := f.uploadedAt

/-- A files table is aligned when along the list rows have non-increasing
uploaded_at and strictly increasing ids — the listing order and the id order
agree. -/
def FileAligned (L : List FileRow) : Prop :=
  L.Pairwise (fun a b => b.uploadedAt ≤ a.uploadedAt ∧ a.id < b.id)

instance : DecidablePred FileAligned := fun L =>
  inferInstanceAs (Decidable (L.Pairwise _))

/-- An aligned table is sorted in the listing order. -/
theorem FileAligned.pairwise_fileOrder {L : List FileRow} (h : FileAligned L) :
    L.Pairwise fileOrder := by
  refine h.imp ?_
  rintro a b ⟨hua, hid⟩
  rcases lt_or_eq_of_le hua with h' | h'
  · exact Or.inl h'
  · exact Or.inr ⟨h'.symm, Nat.le_of_lt hid⟩

/-- Sorting a listing-order-sorted table is the identity. -/
theorem insertionSort_fileOrder_eq {L : List FileRow} (h : L.Pairwise fileOrder) :
    L.insertionSort fileOrder = L :=
  List.Sorted.insertionSort_eq h

/-- On an aligned table, the conjunction cursor predicate taken at row k
selects exactly the rows after position k. -/
theorem filter_after_of_aligned (L : List FileRow) (hA : FileAligned L) (k : Nat)
    (hk : k < L.length) :
    L.filter (fileAfterCursor (fileCursorOf (L.get ⟨k, hk⟩))) = L.drop (k + 1) := by
  induction L generalizing k with
  | nil => simp at hk
  | cons x xs ih =>
    have hx : ∀ y ∈ xs, y.uploadedAt ≤ x.uploadedAt ∧ x.id < y.id :=
      (List.pairwise_cons.mp hA).1
    have hA' : FileAligned xs := (List.pairwise_cons.mp hA).2
    cases k with
    | zero =>
        show List.filter (fileAfterCursor (fileCursorOf x)) (x :: xs) =
          List.drop (0 + 1) (x :: xs)
        have hpx : fileAfterCursor (fileCursorOf x) x = false := by
          simp [fileAfterCursor, fileCursorOf]
        rw [List.filter_cons, hpx]
        simp only [Bool.false_eq_true, if_false]
        rw [List.filter_eq_self.mpr]
        · rfl
        · intro y hy
          obtain ⟨hy1, hy2⟩ := hx y hy
          simp [fileAfterCursor, fileCursorOf, hy1, hy2]
    | succ k' =>
        have hk' : k' < xs.length := by simpa using hk
        have hmem : xs.get ⟨k', hk'⟩ ∈ xs := List.get_mem xs k' hk'
        obtain ⟨hy1, hy2⟩ := hx _ hmem
        show List.filter (fileAfterCursor (fileCursorOf (xs.get ⟨k', hk'⟩))) (x :: xs) =
          List.drop (k' + 1 + 1) (x :: xs)
        have hpx : fileAfterCursor (fileCursorOf (xs.get ⟨k', hk'⟩)) x = false := by
          simp only [List.get_eq_getElem] at hy2
          simp [fileAfterCursor, fileCursorOf]
          intro _
          omega
        rw [List.filter_cons, hpx]
        simp only [Bool.false_eq_true, if_false]
        rw [ih hA' k' hk']
        rfl

/-- The last row of the page (drop k, take n) of a table is the row at
position min (k+n) |L| - 1. -/
theorem getLast?_take_drop (L : List FileRow) (k n : Nat) (hk : k < L.length)
    (hn : 0 < n) (hj : min (k + n) L.length - 1 < L.length) :
    ((L.drop k).take n).getLast? = some (L.get ⟨min (k + n) L.length - 1, hj⟩) := by
  rw [List.getLast?_eq_getElem?]
  have hlen : ((L.drop k).take n).length = min n (L.length - k) := by simp
  rw [hlen]
  have h1 : min n (L.length - k) - 1 < n := by omega
  rw [List.getElem?_take_of_lt h1, List.getElem?_drop]
  have harith : k + (min n (L.length - k) - 1) = min (k + n) L.length - 1 := by omega
  rw [harith, List.getElem?_eq_getElem hj, List.get_eq_getElem]

/-- Advancing from the cursor persisted out of the page at position k: the
remaining rows are exactly those after position k + 1000. -/
theorem filter_after_page_last (L : List FileRow) (hA : FileAligned L) (k : Nat)
    (hk : k < L.length) (last : FileRow)
    (hlast : ((L.drop k).take 1000).getLast? = some last) :
    L.filter (fileAfterCursor (fileCursorOf last)) = L.drop (k + 1000) := by
  have hj : min (k + 1000) L.length - 1 < L.length := by omega
  rw [getLast?_take_drop L k 1000 hk (by omega) hj] at hlast
  have hlast' : last = L.get ⟨min (k + 1000) L.length - 1, hj⟩ := by
    exact (Option.some.inj hlast).symm
  rw [hlast', filter_after_of_aligned L hA _ hj]
  have : min (k + 1000) L.length - 1 + 1 = min (k + 1000) L.length := by omega
  rw [this]
  rcases Nat.le_total (k + 1000) L.length with h | h
  · rw [Nat.min_eq_left h]
  · rw [Nat.min_eq_right h]
    rw [List.drop_eq_nil_of_le (le_refl _), List.drop_eq_nil_of_le h]

/-! ### The single-task store a fresh files re-index enqueue produces, and
how the tick functions act on it -/

/-- The single task row (id 0) of a files re-index run started by one
enqueue on an empty store, with the metadata, status and updated_at it
carries at some point of the run. -/
def singleFilesTaskRow (md : Json) (s : AdminTaskStatus) (u : Nat) : AdminTaskRow where
  id := 0
  initiator := .user
  name := reIndexFilesTaskName
  metadata := md
  status := s
  enqueuedAt := 0
  updatedAt := u

/-- The store as it evolves during a files re-index run started by one
enqueue on an empty store: a single task row (id 0) whose metadata, status,
updated_at and the store clock change tick by tick. -/
def singleFilesTaskStore (md : Json) (s : AdminTaskStatus) (u c : Nat) : TaskStore where
  tasks := [singleFilesTaskRow md s u]
  nextId := 1
  clock := c

/-- Enqueuing the files re-index task on an empty store yields the
single-task store with null-cursor metadata in status pending. -/
theorem enqueue_fresh_files_store :
    (enqueue_task { tasks := [], nextId := 0, clock := 0 } .user reIndexFilesTaskName
      nullFileReIndexMetadata none true true).1 =
      singleFilesTaskStore nullFileReIndexMetadata .pending 0 1 := rfl

/-- get_last_active_task finds the single task while it is active. -/
theorem get_last_active_single (md : Json) (s : AdminTaskStatus) (u c : Nat)
    (h : isActiveStatus s = true) :
    get_last_active_task (singleFilesTaskStore md s u c) reIndexFilesTaskName =
      some (singleFilesTaskRow md s u) := by
  unfold get_last_active_task singleFilesTaskStore singleFilesTaskRow
  simp [List.filter, h, List.insertionSort, List.orderedInsert]

/-- get_last_active_task finds nothing once the single task is completed. -/
theorem get_last_active_single_completed (md : Json) (u c : Nat) :
    get_last_active_task (singleFilesTaskStore md .completed u c)
      reIndexFilesTaskName = none := by
  unfold get_last_active_task singleFilesTaskStore singleFilesTaskRow
  simp [List.filter, isActiveStatus]

/-- The collections re-indexer finds no task in the files-only store. -/
theorem get_last_active_single_collections (md : Json) (s : AdminTaskStatus) (u c : Nat) :
    get_last_active_task (singleFilesTaskStore md s u c)
      reIndexCollectionsTaskName = none := by
  unfold get_last_active_task singleFilesTaskStore singleFilesTaskRow
  simp [List.filter, reIndexFilesTaskName, reIndexCollectionsTaskName]

/-- A status write on the single task stamps it with the clock. -/
theorem update_status_single (md : Json) (s s' : AdminTaskStatus) (u c : Nat) :
    update_task_status (singleFilesTaskStore md s u c) 0 s' =
      singleFilesTaskStore md s' c (c + 1) := by
  unfold update_task_status singleFilesTaskStore singleFilesTaskRow
  simp

/-- A metadata write on the single task stamps it with the clock. -/
theorem update_metadata_single (md md' : Json) (s : AdminTaskStatus) (u c : Nat) :
    update_task_metadata (singleFilesTaskStore md s u c) 0 md' =
      singleFilesTaskStore md' s c (c + 1) := by
  unfold update_task_metadata singleFilesTaskStore singleFilesTaskRow
  simp

/-- The world of a files re-index run: the files table, the single-task
store, and the sink log accumulated so far. -/
def filesRunState (L : List FileRow) (S : List (List FileRow)) (md : Json)
    (s : AdminTaskStatus) (u c : Nat) : ReIndexState where
  files := L
  collections := []
  store := singleFilesTaskStore md s u c
  fileSink := S
  collectionSink := []

/-- Decoding the metadata the tick persists gives back both cursor fields. -/
theorem decode_encode_file_metadata (i u : Nat) :
    decodeFileReIndexMetadata (encodeFileReIndexMetadata i u) = .ok (some i, some u) :=
  rfl

/-- One loop tick while a page remains: the page is pushed as one batch, the
cursor taken from its last row is persisted, the task stays active in
InProgress, and the next interval is the fast cadence (1 second). -/
theorem loop_tick_page (L : List FileRow) (S : List (List FileRow)) (md : Json)
    (s : AdminTaskStatus) (u c : Nat) (p : Option Nat × Option Nat) (k : Nat)
    (last : FileRow) (hact : isActiveStatus s = true)
    (hdec : decodeFileReIndexMetadata md = .ok p)
    (hlist : list_files L 1000 (cursorFromPair p) = (L.drop k).take 1000)
    (hlast : ((L.drop k).take 1000).getLast? = some last) :
    re_index_loop_tick (filesRunState L S md s u c) true =
      (filesRunState L (S ++ [(L.drop k).take 1000])
        (encodeFileReIndexMetadata last.id last.uploadedAt) .inProgress (c + 1) (c + 2),
        1) := by
  have h1 := get_last_active_single md s u c hact
  have h2 := update_status_single md s AdminTaskStatus.inProgress u c
  have h3 := update_metadata_single md
    (encodeFileReIndexMetadata last.id last.uploadedAt) AdminTaskStatus.inProgress c
    (c + 1)
  have h4 := get_last_active_single_collections
    (encodeFileReIndexMetadata last.id last.uploadedAt) AdminTaskStatus.inProgress
    (c + 1) (c + 2)
  simp [re_index_loop_tick, re_index_task_on_tick_files,
    re_index_task_on_tick_for_task_files, re_index_task_on_tick_collections,
    filesRunState, h1, h2, h3, h4, singleFilesTaskRow, hdec, hlist, hlast,
    tickDurationSecs]

/-- One loop tick on an exhausted source: the empty page completes the task
and the next interval is the slow cadence (10 seconds). -/
theorem loop_tick_done (L : List FileRow) (S : List (List FileRow)) (md : Json)
    (s : AdminTaskStatus) (u c : Nat) (p : Option Nat × Option Nat)
    (hact : isActiveStatus s = true)
    (hdec : decodeFileReIndexMetadata md = .ok p)
    (hlist : list_files L 1000 (cursorFromPair p) = []) :
    re_index_loop_tick (filesRunState L S md s u c) true =
      (filesRunState L S md .completed (c + 1) (c + 2), 10) := by
  have h1 := get_last_active_single md s u c hact
  have h2 := update_status_single md s AdminTaskStatus.inProgress u c
  have h3 := update_status_single md AdminTaskStatus.inProgress
    AdminTaskStatus.completed c (c + 1)
  have h4 := get_last_active_single_collections md AdminTaskStatus.completed
    (c + 1) (c + 2)
  simp [re_index_loop_tick, re_index_task_on_tick_files,
    re_index_task_on_tick_for_task_files, re_index_task_on_tick_collections,
    filesRunState, h1, h2, h3, h4, singleFilesTaskRow, hdec, hlist,
    tickDurationSecs]

/-- A loop tick after completion is an idle tick: nothing changes and the
interval is the slow cadence. -/
theorem loop_tick_idle (L : List FileRow) (S : List (List FileRow)) (md : Json)
    (u c : Nat) :
    re_index_loop_tick (filesRunState L S md .completed u c) true =
      (filesRunState L S md .completed u c, 10) := by
  have h1 := get_last_active_single_completed md u c
  have h4 := get_last_active_single_collections md AdminTaskStatus.completed u c
  simp [re_index_loop_tick, re_index_task_on_tick_files,
    re_index_task_on_tick_collections, filesRunState, h1, h4, tickDurationSecs]

/-- The number of ticks a run over d remaining rows needs to reach
Completed: one per full or short page, plus the final empty page —
ceil(d/1000) + 1. -/
def filesTicksFor (d : Nat) : Nat := (d + 999) / 1000 + 1

/-- Peeling one page off the tick budget. -/
theorem filesTicksFor_step (d : Nat) (hd : 0 < d) :
    filesTicksFor d = filesTicksFor (d - 1000) + 1 := by
  unfold filesTicksFor
  omega

/-- The aligned run lemma: from any point of a files re-index run whose
cursor has d = |L| - k rows still ahead of it, filesTicksFor d further ticks
reach the Completed task, having pushed exactly the remaining rows, in
order, across the batches. -/
theorem run_files_aligned (d : Nat) :
    ∀ (L : List FileRow) (S : List (List FileRow)) (md : Json) (s : AdminTaskStatus)
      (u c k : Nat) (p : Option Nat × Option Nat),
    FileAligned L → isActiveStatus s = true →
    decodeFileReIndexMetadata md = .ok p →
    list_files L 1000 (cursorFromPair p) = (L.drop k).take 1000 →
    d = L.length - k →
    ∃ md' u' c' S',
      run_re_index_ticks (filesTicksFor d) (filesRunState L S md s u c) =
        filesRunState L S' md' .completed u' c' ∧
      S'.flatten = S.flatten ++ L.drop k := by
  induction d using Nat.strong_induction_on with
  | _ d ih =>
    intro L S md s u c k p hA hact hdec hlist hd
    rcases Nat.eq_zero_or_pos d with hzero | hpos
    · subst hzero
      have hdrop : L.drop k = [] := List.drop_eq_nil_iff.mpr (by omega)
      have hlist' : list_files L 1000 (cursorFromPair p) = [] := by
        rw [hlist, hdrop]
        rfl
      refine ⟨md, c + 1, c + 2, S, ?_, by rw [hdrop, List.append_nil]⟩
      show run_re_index_ticks 1 (filesRunState L S md s u c) = _
      simp only [run_re_index_ticks]
      rw [loop_tick_done L S md s u c p hact hdec hlist']
    · have hk : k < L.length := by omega
      have hj : min (k + 1000) L.length - 1 < L.length := by omega
      have hlast := getLast?_take_drop L k 1000 hk (by omega) hj
      set last := L.get ⟨min (k + 1000) L.length - 1, hj⟩ with hlastdef
      have htick := loop_tick_page L S md s u c p k last hact hdec hlist hlast
      have hfilter := filter_after_page_last L hA k hk last hlast
      have hsorted : (L.drop (k + 1000)).Pairwise fileOrder :=
        hA.pairwise_fileOrder.sublist (List.drop_sublist _ _)
      have hlist1 : list_files L 1000
          (cursorFromPair (some last.id, some last.uploadedAt)) =
          (L.drop (k + 1000)).take 1000 := by
        show ((L.filter (fileAfterCursor (fileCursorOf last))).insertionSort
          fileOrder).take 1000 = _
        rw [hfilter, insertionSort_fileOrder_eq hsorted]
      obtain ⟨md', u', c', S', hrun, hflat⟩ := ih (d - 1000) (by omega) L
        (S ++ [(L.drop k).take 1000])
        (encodeFileReIndexMetadata last.id last.uploadedAt) .inProgress (c + 1) (c + 2)
        (k + 1000) (some last.id, some last.uploadedAt) hA rfl
        (decode_encode_file_metadata last.id last.uploadedAt) hlist1 (by omega)
      refine ⟨md', u', c', S', ?_, ?_⟩
      · rw [filesTicksFor_step d hpos]
        simp only [run_re_index_ticks]
        rw [htick]
        exact hrun
      · rw [hflat, List.flatten_append]
        simp only [List.flatten, List.append_nil]
        rw [List.append_assoc]
        congr 1
        have hdd : L.drop (k + 1000) = (L.drop k).drop 1000 := by
          rw [List.drop_drop]
        rw [hdd, List.take_append_drop]

/-! ### C2 — end-to-end re-index coverage -/

/-- The world right after an operator enqueues a files re-index task with a
null cursor on an empty task store, over source table L. -/
def freshFilesReIndexState (L : List FileRow) : ReIndexState where
  files := L
  collections := []
  store := (enqueue_task { tasks := [], nextId := 0, clock := 0 } .user
    reIndexFilesTaskName nullFileReIndexMetadata none true true).1
  fileSink := []
  collectionSink := []

/-- The fresh world is a files run state at its start. -/
theorem freshFilesReIndexState_eq (L : List FileRow) :
    freshFilesReIndexState L = filesRunState L [] nullFileReIndexMetadata .pending 0 1 :=
  rfl

/-- An adversarial 1001-row source: rows ranked 1-1000 of the listing order
carry ids 2-1001, and the 1001st row (strictly older, so strictly after them
in the uploaded_at DESC order) carries id 1. -/
def badFiles : List FileRow :=
  ((List.range 1000).map (fun i => { id := i + 2, uploadedAt := 2000 - i, isReady := true }))
    ++ [{ id := 1, uploadedAt := 500, isReady := true }]

set_option maxRecDepth 1000000 in
/-- C2 counterexample: with the 1001-row adversarial source, after
ceil(1001/1000) + 1 = 3 ticks the task is Completed, yet the row with id 1 —
present in the source before the enqueue — was never pushed to the sink: the
cursor after the first page has id 1001, and the conjunction WHERE clause
rejects the remaining row because its id is not past 1001. -/
theorem C2_counterexample :
    (({ id := 1, uploadedAt := 500, isReady := true } : FileRow) ∈ badFiles) ∧
    (run_re_index_ticks 3 (freshFilesReIndexState badFiles)).store.tasks.map
      (fun t => t.status) = [.completed] ∧
    ¬ (({ id := 1, uploadedAt := 500, isReady := true } : FileRow) ∈
        (run_re_index_ticks 3 (freshFilesReIndexState badFiles)).fileSink.flatten) := by
  decide

/-- C2 (amended): for every source whose ids ascend along the
(uploaded_at DESC, id ASC) listing order, enqueuing a null-cursor re-index
task and running ceil(n/1000)+1 ticks ends with the task Completed and the
concatenation of the pushed batches equal to the source — every row exactly
once, for every batch-size boundary alignment. Without the id alignment
rows can be skipped (see the counterexample). -/
theorem C2_aligned_exactly_once (L : List FileRow) (hA : FileAligned L) :
    ∃ md' u' c' S',
      run_re_index_ticks ((L.length + 999) / 1000 + 1) (freshFilesReIndexState L) =
        filesRunState L S' md' .completed u' c' ∧
      S'.flatten = L ∧
      (run_re_index_ticks ((L.length + 999) / 1000 + 1)
        (freshFilesReIndexState L)).store.tasks.map (fun t => t.status) =
        [.completed] := by
  have hlist : list_files L 1000 (cursorFromPair (none, none)) =
      (L.drop 0).take 1000 := by
    show (L.insertionSort fileOrder).take 1000 = _
    rw [insertionSort_fileOrder_eq hA.pairwise_fileOrder, List.drop_zero]
  obtain ⟨md', u', c', S', hrun, hflat⟩ := run_files_aligned L.length L []
    nullFileReIndexMetadata .pending 0 1 0 (none, none) hA rfl rfl hlist (by omega)
  rw [freshFilesReIndexState_eq]
  refine ⟨md', u', c', S', hrun, ?_, ?_⟩
  · rw [hflat]
    rfl
  · rw [show filesTicksFor L.length = (L.length + 999) / 1000 + 1 from rfl] at hrun
    rw [hrun]
    rfl

/-- The canonical aligned source of n files: the file numbered i+1 (ids
ascending along the listing order) with strictly descending uploaded_at. -/
def canonFiles (n : Nat) : List FileRow :=
  (List.range n).map (fun i => FileRow.mk (i + 1) (n - i) true)

/-- Witness for C2's amended theorem on the concrete aligned 3-row source. -/
theorem C2_aligned_exactly_once_witness :
    FileAligned (canonFiles 3) ∧
    ∃ md' u' c' S',
      run_re_index_ticks (((canonFiles 3).length + 999) / 1000 + 1)
          (freshFilesReIndexState (canonFiles 3)) =
        filesRunState (canonFiles 3) S' md' .completed u' c' ∧
      S'.flatten = canonFiles 3 ∧
      (run_re_index_ticks (((canonFiles 3).length + 999) / 1000 + 1)
          (freshFilesReIndexState (canonFiles 3))).store.tasks.map
        (fun t => t.status) = [.completed] :=
  ⟨by decide, C2_aligned_exactly_once (canonFiles 3) (by decide)⟩

/-! ### C8 — the worked 2500-file re-index trace -/

/-- The block of the canonical n-file source holding files a+1 through a+b
(rows ranked a+1 to a+b of the listing order). -/
def canonSlice (n a b : Nat) : List FileRow :=
  (List.range' a b).map (fun i => FileRow.mk (i + 1) (n - i) true)

/-- The canonical source is aligned: its ids ascend along the listing
order. -/
theorem canonFiles_aligned (n : Nat) : FileAligned (canonFiles n) := by
  unfold canonFiles FileAligned
  rw [List.pairwise_map]
  refine (List.pairwise_lt_range n).imp ?_
  intro i j hij
  constructor <;> simp <;> omega

/-- The canonical source has one row per file. -/
theorem canonFiles_length (n : Nat) : (canonFiles n).length = n := by
  simp [canonFiles]

/-- Row k of the canonical source is file number k+1. -/
theorem canonFiles_get (n k : Nat) (h : k < (canonFiles n).length) :
    (canonFiles n).get ⟨k, h⟩ = FileRow.mk (k + 1) (n - k) true := by
  simp [canonFiles]

/-- The 2500-file source splits into the three pages the trace pushes. -/
theorem canonFiles_2500_decomp :
    canonFiles 2500 =
      canonSlice 2500 0 1000 ++ (canonSlice 2500 1000 1000 ++ canonSlice 2500 2000 500) := by
  unfold canonFiles canonSlice
  rw [List.range_eq_range', ← List.map_append, ← List.map_append]
  refine congrArg _ ?_
  have h1 : List.range' 1000 1000 ++ List.range' 2000 500 = List.range' 1000 1500 := by
    have h := List.range'_append_1 1000 1000 500
    norm_num at h
    exact h
  have h2 : List.range' 0 1000 ++ List.range' 1000 1500 = List.range' 0 2500 := by
    have h := List.range'_append_1 0 1000 1500
    norm_num at h
    exact h
  rw [h1, h2]

/-- Each slice has as many rows as files it carries. -/
theorem canonSlice_length (n a b : Nat) : (canonSlice n a b).length = b := by
  simp [canonSlice]

/-- Page 1 of the trace: files 1-1000. -/
theorem canonFiles_2500_take :
    (canonFiles 2500).take 1000 = canonSlice 2500 0 1000 := by
  rw [canonFiles_2500_decomp]
  exact List.take_left' (canonSlice_length 2500 0 1000)

/-- Page 2 of the trace: files 1001-2000. -/
theorem canonFiles_2500_mid :
    ((canonFiles 2500).drop 1000).take 1000 = canonSlice 2500 1000 1000 := by
  rw [canonFiles_2500_decomp, List.drop_left' (canonSlice_length 2500 0 1000)]
  exact List.take_left' (canonSlice_length 2500 1000 1000)

/-- Page 3 of the trace: files 2001-2500 (a short page of 500 rows). -/
theorem canonFiles_2500_last :
    ((canonFiles 2500).drop 2000).take 1000 = canonSlice 2500 2000 500 := by
  rw [canonFiles_2500_decomp, ← List.append_assoc]
  have h2000 : (canonSlice 2500 0 1000 ++ canonSlice 2500 1000 1000).length = 2000 := by
    rw [List.length_append, canonSlice_length, canonSlice_length]
  rw [List.drop_left' h2000]
  refine List.take_of_length_le ?_
  rw [canonSlice_length]
  omega

/-- The last row of a non-empty slice is its highest-numbered file. -/
theorem canonSlice_getLast? (n a b : Nat) :
    (canonSlice n a (b + 1)).getLast? = some (FileRow.mk (a + b + 1) (n - (a + b)) true) := by
  unfold canonSlice
  rw [List.range'_1_concat, List.map_append]
  simp

/-- C8: the worked trace over 2500 files with batch size 1000, starting from
the task enqueued with null-cursor metadata. Tick 1 pushes files 1-1000
(canonSlice 2500 0 1000) and persists the cursor (id 1000, uploaded_at 1501)
of file 1000, the task stays InProgress and the next interval is fast
(1 second); tick 2 pushes files 1001-2000 likewise; tick 3 pushes the short
page of files 2001-2500 (500 rows) and still advances the cursor to file
2500; tick 4 receives an empty page, completes the task, leaves the sink
unchanged and the next interval is slow (10 seconds). -/
theorem C8_worked_trace :
    re_index_loop_tick (freshFilesReIndexState (canonFiles 2500)) true =
      (filesRunState (canonFiles 2500) [canonSlice 2500 0 1000]
        (encodeFileReIndexMetadata 1000 1501) .inProgress 2 3, 1) ∧
    re_index_loop_tick (filesRunState (canonFiles 2500) [canonSlice 2500 0 1000]
        (encodeFileReIndexMetadata 1000 1501) .inProgress 2 3) true =
      (filesRunState (canonFiles 2500)
        [canonSlice 2500 0 1000, canonSlice 2500 1000 1000]
        (encodeFileReIndexMetadata 2000 501) .inProgress 4 5, 1) ∧
    re_index_loop_tick (filesRunState (canonFiles 2500)
        [canonSlice 2500 0 1000, canonSlice 2500 1000 1000]
        (encodeFileReIndexMetadata 2000 501) .inProgress 4 5) true =
      (filesRunState (canonFiles 2500)
        [canonSlice 2500 0 1000, canonSlice 2500 1000 1000, canonSlice 2500 2000 500]
        (encodeFileReIndexMetadata 2500 1) .inProgress 6 7, 1) ∧
    (canonSlice 2500 2000 500).length = 500 ∧
    re_index_loop_tick (filesRunState (canonFiles 2500)
        [canonSlice 2500 0 1000, canonSlice 2500 1000 1000, canonSlice 2500 2000 500]
        (encodeFileReIndexMetadata 2500 1) .inProgress 6 7) true =
      (filesRunState (canonFiles 2500)
        [canonSlice 2500 0 1000, canonSlice 2500 1000 1000, canonSlice 2500 2000 500]
        (encodeFileReIndexMetadata 2500 1) .completed 8 9, 10) := by
  have hA := canonFiles_aligned 2500
  have hsorted := hA.pairwise_fileOrder
  have hk0 : 0 < (canonFiles 2500).length := by rw [canonFiles_length]; omega
  have hk1 : 1000 < (canonFiles 2500).length := by rw [canonFiles_length]; omega
  have hk2 : 2000 < (canonFiles 2500).length := by rw [canonFiles_length]; omega
  have hlast1 : (canonSlice 2500 0 1000).getLast? = some (FileRow.mk 1000 1501 true) := by
    have h := canonSlice_getLast? 2500 0 999
    norm_num at h
    exact h
  have hlast2 : (canonSlice 2500 1000 1000).getLast? =
      some (FileRow.mk 2000 501 true) := by
    have h := canonSlice_getLast? 2500 1000 999
    norm_num at h
    exact h
  have hlast3 : (canonSlice 2500 2000 500).getLast? = some (FileRow.mk 2500 1 true) := by
    have h := canonSlice_getLast? 2500 2000 499
    norm_num at h
    exact h
  have hL1 : ((canonFiles 2500).drop 0).take 1000 = canonSlice 2500 0 1000 := by
    rw [List.drop_zero]
    exact canonFiles_2500_take
  have hlast1' : (((canonFiles 2500).drop 0).take 1000).getLast? =
      some (FileRow.mk 1000 1501 true) := by rw [hL1]; exact hlast1
  have hlast2' : (((canonFiles 2500).drop 1000).take 1000).getLast? =
      some (FileRow.mk 2000 501 true) := by rw [canonFiles_2500_mid]; exact hlast2
  have hlast3' : (((canonFiles 2500).drop 2000).take 1000).getLast? =
      some (FileRow.mk 2500 1 true) := by rw [canonFiles_2500_last]; exact hlast3
  have hfilter1 := filter_after_page_last (canonFiles 2500) hA 0 hk0
    (FileRow.mk 1000 1501 true) hlast1'
  have hfilter2 := filter_after_page_last (canonFiles 2500) hA 1000 hk1
    (FileRow.mk 2000 501 true) hlast2'
  have hfilter3 := filter_after_page_last (canonFiles 2500) hA 2000 hk2
    (FileRow.mk 2500 1 true) hlast3'
  have hlist0 : list_files (canonFiles 2500) 1000 (cursorFromPair (none, none)) =
      ((canonFiles 2500).drop 0).take 1000 := by
    show ((canonFiles 2500).insertionSort fileOrder).take 1000 = _
    rw [insertionSort_fileOrder_eq hsorted, List.drop_zero]
  have hlist1 : list_files (canonFiles 2500) 1000
      (cursorFromPair (some 1000, some 1501)) =
      ((canonFiles 2500).drop 1000).take 1000 := by
    show (((canonFiles 2500).filter
      (fileAfterCursor (fileCursorOf (FileRow.mk 1000 1501 true)))).insertionSort
      fileOrder).take 1000 = _
    rw [hfilter1, insertionSort_fileOrder_eq (hsorted.sublist (List.drop_sublist _ _))]
  have hlist2 : list_files (canonFiles 2500) 1000
      (cursorFromPair (some 2000, some 501)) =
      ((canonFiles 2500).drop 2000).take 1000 := by
    show (((canonFiles 2500).filter
      (fileAfterCursor (fileCursorOf (FileRow.mk 2000 501 true)))).insertionSort
      fileOrder).take 1000 = _
    rw [hfilter2, insertionSort_fileOrder_eq (hsorted.sublist (List.drop_sublist _ _))]
  have hlist3 : list_files (canonFiles 2500) 1000
      (cursorFromPair (some 2500, some 1)) = [] := by
    show (((canonFiles 2500).filter
      (fileAfterCursor (fileCursorOf (FileRow.mk 2500 1 true)))).insertionSort
      fileOrder).take 1000 = _
    rw [hfilter3, List.drop_eq_nil_of_le (by rw [canonFiles_length]; omega)]
    rfl
  refine ⟨?_, ?_, ?_, canonSlice_length 2500 2000 500, ?_⟩
  · have h := loop_tick_page (canonFiles 2500) [] nullFileReIndexMetadata .pending 0 1
      (none, none) 0 (FileRow.mk 1000 1501 true) rfl rfl hlist0 hlast1'
    rw [hL1] at h
    rw [freshFilesReIndexState_eq]
    exact h
  · have h := loop_tick_page (canonFiles 2500) [canonSlice 2500 0 1000]
      (encodeFileReIndexMetadata 1000 1501) .inProgress 2 3
      (some 1000, some 1501) 1000 (FileRow.mk 2000 501 true) rfl rfl hlist1 hlast2'
    rw [canonFiles_2500_mid] at h
    exact h
  · have h := loop_tick_page (canonFiles 2500)
      [canonSlice 2500 0 1000, canonSlice 2500 1000 1000]
      (encodeFileReIndexMetadata 2000 501) .inProgress 4 5
      (some 2000, some 501) 2000 (FileRow.mk 2500 1 true) rfl rfl hlist2 hlast3'
    rw [canonFiles_2500_last] at h
    exact h
  · have h := loop_tick_done (canonFiles 2500)
      [canonSlice 2500 0 1000, canonSlice 2500 1000 1000, canonSlice 2500 2000 500]
      (encodeFileReIndexMetadata 2500 1) .inProgress 6 7
      (some 2500, some 1) rfl rfl hlist3
    exact h

end FileIndexer
